import Mathlib

/-!
Shallow embedding of `src/visualisation/trigram.cc` (veles visualization
core) and proofs about it.

Conventions of the embedding:
* C++ `int` sizes and counters become `Nat`/`Int`; byte values become
  `Fin 256` (the source reads the buffer as `uint8_t`).
* The brightness-heuristic threshold test `sum < 0.66 * size` (a `double`
  comparison in the source) is embedded as the exact rational comparison
  `50 * sum < 33 * size`.  For every `int` size the two agree: the nearest
  double to 0.66 exceeds 0.66 by about 3.1e-17, so the product
  `0.66 * size` differs from the exact value by less than 7e-8 even at
  `size = 2^31`, while the distance from `0.66 * size` to the nearest
  integer is either 0 (then the rounded product is exactly that integer,
  the perturbation being far below half an ulp) or at least 1/50.
* The scaling `static_cast<int>(offset / 2.5)` is embedded as
  `2 * offset / 5` in `Nat` (the quotient 0.4·offset is computed exactly
  in double for the relevant range, and truncation equals floor for
  non-negative values).
* The morph blend scalars `c_cyl`, `c_sph`, `c_pos` are embedded as exact
  rationals stepping by 1/100, following the specification's description
  of them as scalars in [0,1]; their machine numeric type is declared in
  `trigram.h`, which is not part of the analysed sources.
* `setBrightness` divides by the data size; the division is embedded
  fallibly (`Option`): a zero size has no defined result.
-/

namespace Veles

/-- Constant `k_minimum_brightness` from trigram.cc. -/
def k_minimum_brightness : Int := 25

/-- Constant `k_maximum_brightness` from trigram.cc. -/
def k_maximum_brightness : Int := 103

/-- Constant `k_brightness_heuristic_min` from trigram.cc. -/
def k_brightness_heuristic_min : Int := 38

/-- Constant `k_brightness_heuristic_max` from trigram.cc. -/
def k_brightness_heuristic_max : Int := 66

/-- The 256-bucket histogram built by `suggestBrightness`:
`counts[v]` is the number of occurrences of byte value `v` in the data. -/
def histogramCounts (data : List (Fin 256)) : List Nat :=
  (List.finRange 256).map (fun v => data.count v)

/-- The loop
`while (offset < 255 && sum < 0.66 * size) { sum += counts[255 - offset]; offset += 1; }`
of `suggestBrightness`, walking a descending list of bucket counts
(the ascending sorted vector indexed from the top).  Returns the final
`(offset, sum)`. -/
def heuristicWalk (size : Nat) : List Nat → Nat → Nat → Nat × Nat
  | [], offset, sum => (offset, sum)
  | c :: rest, offset, sum =>
    if offset < 255 ∧ 50 * sum < 33 * size then
      heuristicWalk size rest (offset + 1) (sum + c)
    else (offset, sum)

/-- The bucket counts sorted ascending by `std::sort` and then viewed from
the top: the descending list `counts[255], counts[254], ...` that the
walk of `suggestBrightness` traverses via `counts[255 - offset]`. -/
def heuristicBuckets (data : List (Fin 256)) : List Nat :=
  ((histogramCounts data).insertionSort (· ≤ ·)).reverse

/-- The final `(offset, sum)` of the walk of `suggestBrightness`,
started at `offset = 0`, `sum = 0`. -/
def walkResult (data : List (Fin 256)) : Nat × Nat :=
  heuristicWalk data.length (heuristicBuckets data) 0 0

/-- `TrigramWidget::suggestBrightness`, embedded over the byte list the
widget reads through `getData()`/`getDataSize()`. -/
def suggestBrightness (data : List (Fin 256)) : Int :=
  let size := data.length
  if size < 100 then (k_minimum_brightness + k_maximum_brightness) / 2
  else
    let offset := (walkResult data).1
    let offset2 := 2 * offset / 5
    max k_brightness_heuristic_min (k_brightness_heuristic_max - offset2)

/-- `TrigramWidget::setBrightness`: the intensity `c_brightness` it
establishes, namely `value * value * value / getDataSize()`.  The
division is by the data size with no guard; a zero size has no defined
finite result, embedded as `none`. -/
def setBrightnessIntensity (value : Int) (dataSize : Nat) : Option ℚ :=
  if dataSize = 0 then none
  else some ((value : ℚ) * value * value / dataSize)

/-- Enum `EVisualisationShape`. -/
inductive EVisualisationShape
  | CUBE
  | CYLINDER
  | SPHERE
deriving DecidableEq

/-- Enum `EVisualisationMode`. -/
inductive EVisualisationMode
  | TRIGRAM
  | LAYERED_DIGRAM
deriving DecidableEq

/-- The widget state touched by the morph state machine: the target
shape and mode, the rotation angle, the three blend scalars and the
playing flag.  The scalars step by exact rational 1/100 (the header
declaring their machine type is outside the analysed sources; the
specification describes them as scalars in [0,1]). -/
structure TrigramState where
  shape_ : EVisualisationShape
  mode_ : EVisualisationMode
  angle : ℚ
  c_cyl : ℚ
  c_sph : ℚ
  c_pos : ℚ
  is_playing_ : Bool
deriving DecidableEq

/-- `TrigramWidget::timerEvent`: one fixed-period animation tick.
Mirrors the source statement by statement: angle advance while playing,
±0.01 steps on `c_cyl`/`c_sph` followed by both clamps, then the two
guarded `c_pos` steps with their inner clamps. -/
def timerEvent (s : TrigramState) : TrigramState :=
  let angle := if s.is_playing_ then s.angle + 1/2 else s.angle
  let c_cyl := if s.shape_ = EVisualisationShape.CYLINDER
    then s.c_cyl + 1/100 else s.c_cyl - 1/100
  let c_sph := if s.shape_ = EVisualisationShape.SPHERE
    then s.c_sph + 1/100 else s.c_sph - 1/100
  let c_cyl := if 1 < c_cyl then 1 else c_cyl
  let c_cyl := if c_cyl < 0 then 0 else c_cyl
  let c_sph := if 1 < c_sph then 1 else c_sph
  let c_sph := if c_sph < 0 then 0 else c_sph
  let c_pos :=
    if s.mode_ = EVisualisationMode.LAYERED_DIGRAM ∧ s.c_pos < 1 then
      (if 1 < s.c_pos + 1/100 then 1 else s.c_pos + 1/100)
    else s.c_pos
  let c_pos :=
    if ¬s.mode_ = EVisualisationMode.LAYERED_DIGRAM ∧ ¬c_pos = 0 then
      (if c_pos - 1/100 < 0 then 0 else c_pos - 1/100)
    else c_pos
  { s with angle := angle, c_cyl := c_cyl, c_sph := c_sph, c_pos := c_pos }

/-- `TrigramWidget::setMode`: store the mode; with `animate` false snap
`c_pos` straight to its target. -/
def setMode (s : TrigramState) (mode : EVisualisationMode)
    (animate : Bool) : TrigramState :=
  let s1 : TrigramState := { s with mode_ := mode }
  if s1.mode_ = EVisualisationMode.LAYERED_DIGRAM ∧ animate = false then
    { s1 with c_pos := 1 }
  else if s1.mode_ = EVisualisationMode.TRIGRAM ∧ animate = false then
    { s1 with c_pos := 0 }
  else s1

/-- `TrigramWidget::setShape`: store the shape.  The source function
takes no animate flag and writes nothing but `shape_`. -/
def setShape (s : TrigramState) (shape : EVisualisationShape) :
    TrigramState :=
  { s with shape_ := shape }

/-- A user-driven interaction step between ticks: a timer tick, a shape
selection, or a mode selection. -/
inductive WidgetAction
  | tick
  | selectShape (shape : EVisualisationShape)
  | selectMode (mode : EVisualisationMode) (animate : Bool)

/-- Apply one interaction step. -/
def applyAction (s : TrigramState) : WidgetAction → TrigramState
  | WidgetAction.tick => timerEvent s
  | WidgetAction.selectShape sh => setShape s sh
  | WidgetAction.selectMode m animate => setMode s m animate

/-- Run a sequence of interaction steps, oldest first. -/
def runActions (s : TrigramState) (acts : List WidgetAction) : TrigramState :=
  acts.foldl applyAction s

/-- Iterate bare timer ticks with all settings held constant. -/
def runTicks : ℕ → TrigramState → TrigramState
  | 0, s => s
  | n + 1, s => runTicks n (timerEvent s)

/-- All three blend scalars lie in the unit interval. -/
def BlendsInUnit (s : TrigramState) : Prop :=
  0 ≤ s.c_cyl ∧ s.c_cyl ≤ 1 ∧ 0 ≤ s.c_sph ∧ s.c_sph ≤ 1 ∧
    0 ≤ s.c_pos ∧ s.c_pos ≤ 1

instance (s : TrigramState) : Decidable (BlendsInUnit s) := by
  unfold BlendsInUnit
  infer_instance

/-- A rational number is representable as a binary floating-point value
(of any precision) only if it is dyadic: an integer divided by a power
of two. -/
def IsDyadic (q : ℚ) : Prop := ∃ (m : ℤ) (k : ℕ), q = (m : ℚ) / 2 ^ k

/-- The three camera manipulators owned by the widget, created once in
the constructor in this order and never destroyed. -/
inductive Manipulator
  | Spin
  | Trackball
  | Free
deriving DecidableEq

/-- A Qt input event, as far as `TrigramWidget::event` inspects it: a
mouse move carrying whether the left button is held, a key press
carrying the key code, or anything else. -/
inductive InputEvent
  | mouseMove (leftButtonHeld : Bool)
  | keyPress (key : Int)
  | other

/-- The widget state touched by `setManipulator`, `playPause` and
`event`, parametric over the pose type `M` of the manipulators (the
manipulator classes are outside the analysed sources).
`event_filters` is the set of manipulators subscribed through
`installEventFilter`, `transforms` each manipulator's internal pose,
`notifications` the `manipulatorChanged` emissions in order. -/
structure ManipState (M : Type) where
  current_manipulator_ : Option Manipulator
  event_filters : List Manipulator
  is_playing_ : Bool
  pause_button_present : Bool
  pause_button_enabled : Bool
  transforms : Manipulator → M
  notifications : List Manipulator

/-- `TrigramWidget::playPause` (the icon swap is not tracked): toggles
the playing flag. -/
def playPause {M : Type} (s : ManipState M) : ManipState M :=
  { s with is_playing_ := !s.is_playing_ }

/-- `TrigramWidget::setManipulator`.  `transform` is the polymorphic
`Manipulator::transform`, `initFromMatrix p t` the effect of
`initFromMatrix(t)` on a manipulator with pose `p`, and `handlesPause`
the polymorphic `Manipulator::handlesPause`; all three live outside the
analysed sources and are taken as parameters. -/
def setManipulator {M : Type} (transform : M → M)
    (initFromMatrix : M → M → M) (handlesPause : Manipulator → Bool)
    (s : ManipState M) (manipulator : Manipulator) : ManipState M :=
  if some manipulator = s.current_manipulator_ then s
  else
    let s1 : ManipState M := { s with event_filters := [manipulator] }
    let s2 : ManipState M :=
      match s1.current_manipulator_ with
      | some cur =>
        { s1 with transforms := fun m =>
            if m = manipulator then
              initFromMatrix (s1.transforms m) (transform (s1.transforms cur))
            else s1.transforms m }
      | none => s1
    let s3 : ManipState M := { s2 with current_manipulator_ := some manipulator }
    let s4 : ManipState M := if !s3.is_playing_ then playPause s3 else s3
    let s5 : ManipState M :=
      if s4.pause_button_present then
        { s4 with pause_button_enabled := handlesPause manipulator }
      else s4
    { s5 with notifications := s5.notifications ++ [manipulator] }

/-- `TrigramWidget::event`: the promotion rules evaluated before normal
dispatch.  Returns the state after any promotion together with the list
of manipulators on which `processEvent` is called explicitly (the final
`QWidget::event` base call and the event-filter routing are outside the
analysed logic).  `isCtrlButton` is `FreeManipulator::isCtrlButton`,
outside the analysed sources, taken as a parameter. -/
def event {M : Type} (transform : M → M) (initFromMatrix : M → M → M)
    (handlesPause : Manipulator → Bool) (isCtrlButton : Int → Bool)
    (s : ManipState M) (e : InputEvent) : ManipState M × List Manipulator :=
  match e with
  | InputEvent.mouseMove left =>
    if left = true ∧ s.current_manipulator_ = some Manipulator.Spin then
      (setManipulator transform initFromMatrix handlesPause s
          Manipulator.Trackball,
        [Manipulator.Trackball])
    else (s, [])
  | InputEvent.keyPress key =>
    if (s.current_manipulator_ = some Manipulator.Spin ∨
          s.current_manipulator_ = some Manipulator.Trackball) ∧
        isCtrlButton key = true then
      (setManipulator transform initFromMatrix handlesPause s
          Manipulator.Free,
        [Manipulator.Trackball])
    else (s, [])
  | InputEvent.other => (s, [])

/-! ### Properties of the heuristic walk -/

/-- Full characterisation of `heuristicWalk` started at an arbitrary
`(offset, sum)`: the final offset only grows, by at most the list length;
the final sum is the initial sum plus the consumed prefix; the guard held
at every intermediate state; and at exit either the list was exhausted or
the guard failed. -/
theorem heuristicWalk_spec (size : Nat) (d : List Nat) :
    ∀ offset sum : Nat,
    offset ≤ (heuristicWalk size d offset sum).1 ∧
    (heuristicWalk size d offset sum).1 - offset ≤ d.length ∧
    (heuristicWalk size d offset sum).2
      = sum + (d.take ((heuristicWalk size d offset sum).1 - offset)).sum ∧
    (∀ k, k < (heuristicWalk size d offset sum).1 - offset →
      50 * (sum + (d.take k).sum) < 33 * size ∧ offset + k < 255) ∧
    ((heuristicWalk size d offset sum).1 - offset = d.length ∨
      ¬((heuristicWalk size d offset sum).1 < 255 ∧
        50 * (heuristicWalk size d offset sum).2 < 33 * size)) := by
  induction d with
  | nil =>
    intro offset sum
    simp [heuristicWalk]
  | cons c rest ih =>
    intro offset sum
    by_cases hg : offset < 255 ∧ 50 * sum < 33 * size
    · have hw : heuristicWalk size (c :: rest) offset sum
          = heuristicWalk size rest (offset + 1) (sum + c) := by
        simp [heuristicWalk, hg]
      rw [hw]
      obtain ⟨h1, h2, h3, h4, h5⟩ := ih (offset + 1) (sum + c)
      set r := heuristicWalk size rest (offset + 1) (sum + c) with hr
      have hoff : r.1 - offset = (r.1 - (offset + 1)) + 1 := by omega
      refine ⟨by omega, by simp; omega, ?_, ?_, ?_⟩
      · rw [hoff, List.take_succ_cons, List.sum_cons, h3]
        omega
      · intro k hk
        match k with
        | 0 =>
          simpa using ⟨hg.2, hg.1⟩
        | j + 1 =>
          have hj : j < r.1 - (offset + 1) := by omega
          obtain ⟨hja, hjb⟩ := h4 j hj
          rw [List.take_succ_cons, List.sum_cons]
          constructor
          · omega
          · omega
      · rcases h5 with h5 | h5
        · left
          simp
          omega
        · right
          exact h5
    · have hw : heuristicWalk size (c :: rest) offset sum = (offset, sum) := by
        simp only [heuristicWalk]
        rw [if_neg hg]
      rw [hw]
      refine ⟨le_refl _, by simp, by simp, ?_, Or.inr ?_⟩
      · intro k hk
        omega
      · simpa using hg

/-- If every element of `B` is bounded by every element of `A`, the
average of `A` dominates the average of `B` (cross multiplied). -/
theorem length_mul_sum_le (A B : List Nat)
    (h : ∀ a ∈ A, ∀ b ∈ B, b ≤ a) :
    A.length * B.sum ≤ A.sum * B.length := by
  induction A with
  | nil => simp
  | cons a A ih =>
    have hB : B.sum ≤ B.length * a := by
      have := List.sum_le_card_nsmul B a (h a (by simp))
      simpa [smul_eq_mul] using this
    have hA : A.length * B.sum ≤ A.sum * B.length := by
      apply ih
      intro x hx b hb
      exact h x (by simp [hx]) b hb
    simp only [List.length_cons, List.sum_cons]
    calc (A.length + 1) * B.sum = A.length * B.sum + B.sum := by ring
    _ ≤ A.sum * B.length + B.length * a := Nat.add_le_add hA hB
    _ = (a + A.sum) * B.length := by ring

/-- In a descending-sorted list, the sum of the first `k` elements is at
least the `k/length` fraction of the total (cross multiplied). -/
theorem take_sum_ge_fraction (d : List Nat) (k : Nat) (hk : k ≤ d.length)
    (hsorted : d.Sorted (· ≥ ·)) :
    k * d.sum ≤ d.length * (d.take k).sum := by
  have hsplit : d.take k ++ d.drop k = d := List.take_append_drop k d
  have hpair : ∀ a ∈ d.take k, ∀ b ∈ d.drop k, b ≤ a := by
    have := hsorted
    rw [← hsplit] at this
    have := (List.pairwise_append).1 this
    intro a ha b hb
    exact this.2.2 a ha b hb
  have hlenA : (d.take k).length = k := by
    simp [List.length_take, Nat.min_eq_left hk]
  have hlenB : (d.drop k).length = d.length - k := by
    simp [List.length_drop]
  have hsum : d.sum = (d.take k).sum + (d.drop k).sum := by
    conv_lhs => rw [← hsplit]
    rw [List.sum_append]
  have hcross : (d.take k).length * (d.drop k).sum
      ≤ (d.take k).sum * (d.drop k).length := length_mul_sum_le _ _ hpair
  rw [hlenA, hlenB] at hcross
  have hlen : k + (d.length - k) = d.length := by omega
  calc k * d.sum = k * (d.take k).sum + k * (d.drop k).sum := by
        rw [hsum]; ring
  _ ≤ k * (d.take k).sum + (d.take k).sum * (d.length - k) :=
        Nat.add_le_add_left hcross _
  _ = (d.take k).sum * (k + (d.length - k)) := by ring
  _ = d.length * (d.take k).sum := by rw [hlen]; ring

/-- The histogram buckets total the buffer length: every byte lands in
exactly one bucket. -/
theorem histogramCounts_sum (data : List (Fin 256)) :
    (histogramCounts data).sum = data.length := by
  unfold histogramCounts
  rw [← Fin.sum_univ_def]
  induction data with
  | nil => simp
  | cons a t ih =>
    have hstep : ∀ v : Fin 256, (a :: t).count v
        = t.count v + if a = v then 1 else 0 := by
      intro v
      simp [List.count_cons]
    simp only [hstep, List.length_cons]
    rw [Finset.sum_add_distrib, ih]
    simp

/-- The descending bucket list has exactly 256 entries. -/
theorem heuristicBuckets_length (data : List (Fin 256)) :
    (heuristicBuckets data).length = 256 := by
  unfold heuristicBuckets
  rw [List.length_reverse, List.length_insertionSort]
  simp [histogramCounts]

/-- The descending bucket list still totals the buffer length. -/
theorem heuristicBuckets_sum (data : List (Fin 256)) :
    (heuristicBuckets data).sum = data.length := by
  unfold heuristicBuckets
  rw [List.sum_reverse]
  rw [(List.perm_insertionSort (· ≤ ·) (histogramCounts data)).sum_eq]
  exact histogramCounts_sum data

/-- The descending bucket list is sorted in decreasing order. -/
theorem heuristicBuckets_sorted (data : List (Fin 256)) :
    (heuristicBuckets data).Sorted (· ≥ ·) := by
  unfold heuristicBuckets
  rw [List.Sorted, List.pairwise_reverse]
  exact List.sorted_insertionSort (· ≤ ·) (histogramCounts data)

/-- Every bucket count appears in the descending bucket list. -/
theorem count_mem_heuristicBuckets (data : List (Fin 256)) (v : Fin 256) :
    data.count v ∈ heuristicBuckets data := by
  unfold heuristicBuckets
  rw [List.mem_reverse, (List.perm_insertionSort (· ≤ ·) _).mem_iff]
  unfold histogramCounts
  exact List.mem_map.2 ⟨v, List.mem_finRange v, rfl⟩

/-- The 169 largest buckets already hold at least 66 percent of the
bytes: 169/256 = 0.66015625 ≥ 0.66.  Consequently the walk can never
run to the bucket-exhaustion bound. -/
theorem take169_reaches_threshold (data : List (Fin 256)) :
    33 * data.length ≤ 50 * ((heuristicBuckets data).take 169).sum := by
  have h := take_sum_ge_fraction (heuristicBuckets data) 169
    (by rw [heuristicBuckets_length]; omega) (heuristicBuckets_sorted data)
  rw [heuristicBuckets_length, heuristicBuckets_sum] at h
  omega

/-- Claim C3: for buffers of size at least 100 the walk consumes the
largest buckets first and terminates exactly when the running sum
reaches the 66 percent threshold: the final sum is the total of the
`offset` largest buckets, that total has reached the threshold, no
shorter prefix had, and the bucket-exhaustion bound was never hit
(`offset < 255 ≤ 256`). -/
theorem walkResult_termination (data : List (Fin 256))
    (hsize : 100 ≤ data.length) :
    (walkResult data).2
      = ((heuristicBuckets data).take (walkResult data).1).sum ∧
    33 * data.length ≤ 50 * (walkResult data).2 ∧
    (walkResult data).1 < 255 ∧
    (∀ k, k < (walkResult data).1 →
      50 * ((heuristicBuckets data).take k).sum < 33 * data.length) := by
  obtain ⟨h1, h2, h3, h4, h5⟩ :=
    heuristicWalk_spec data.length (heuristicBuckets data) 0 0
  have hr : walkResult data
      = heuristicWalk data.length (heuristicBuckets data) 0 0 := rfl
  rw [← hr] at h2 h3 h4 h5
  rw [Nat.sub_zero, Nat.zero_add] at h3
  rw [Nat.sub_zero] at h2 h5
  have hbound : (walkResult data).1 ≤ 169 := by
    by_contra hgt
    have h169 := (h4 169 (by omega)).1
    have := take169_reaches_threshold data
    omega
  have hlt : (walkResult data).1 < 255 := by omega
  have hthr : 33 * data.length ≤ 50 * (walkResult data).2 := by
    rcases h5 with h5 | h5
    · rw [heuristicBuckets_length] at h5
      omega
    · by_contra hno
      exact h5 ⟨hlt, by omega⟩
  refine ⟨h3, hthr, hlt, ?_⟩
  intro k hk
  have := (h4 k (by omega)).1
  omega

/-- Witness for C3 at a concrete buffer of 100 bytes. -/
theorem walkResult_termination_witness :
    100 ≤ (List.replicate 100 (65 : Fin 256)).length ∧
    33 * (List.replicate 100 (65 : Fin 256)).length
      ≤ 50 * (walkResult (List.replicate 100 (65 : Fin 256))).2 :=
  ⟨by simp, (walkResult_termination (List.replicate 100 65) (by simp)).2.1⟩

/-- Claim C2: for every buffer of size below 100, `suggestBrightness`
returns the midpoint 64 of the slider range, whatever the contents. -/
theorem suggestBrightness_small (data : List (Fin 256))
    (h : data.length < 100) : suggestBrightness data = 64 := by
  simp only [suggestBrightness]
  rw [if_pos h]
  decide

/-- Witness for C2 at a concrete 10-byte buffer. -/
theorem suggestBrightness_small_witness :
    (List.replicate 10 (65 : Fin 256)).length < 100 ∧
    suggestBrightness (List.replicate 10 (65 : Fin 256)) = 64 :=
  ⟨by simp, suggestBrightness_small (List.replicate 10 65) (by simp)⟩

/-- Claim C1 (amended): for every buffer of size at least 100 in which a
single byte value occupies at least 66 percent of the bytes,
`suggestBrightness` returns 66: the walk stops after the single largest
bucket, and the offset 1 scales down to 0. -/
theorem suggestBrightness_dominant (data : List (Fin 256)) (v : Fin 256)
    (hsize : 100 ≤ data.length)
    (hdom : 66 * data.length ≤ 100 * data.count v) :
    suggestBrightness data = 66 := by
  have hlen := heuristicBuckets_length data
  obtain ⟨c, rest, hd⟩ : ∃ c rest, heuristicBuckets data = c :: rest := by
    cases hb : heuristicBuckets data with
    | nil => rw [hb] at hlen; simp at hlen
    | cons c rest => exact ⟨c, rest, rfl⟩
  have hcmax : data.count v ≤ c := by
    have hmem := count_mem_heuristicBuckets data v
    have hsorted := heuristicBuckets_sorted data
    rw [hd] at hmem hsorted
    rw [List.sorted_cons] at hsorted
    rcases List.mem_cons.1 hmem with h | h
    · omega
    · exact hsorted.1 _ h
  have htail : heuristicWalk data.length rest 1 (0 + c) = (1, 0 + c) := by
    cases rest with
    | nil => rfl
    | cons c2 rest2 =>
      simp only [heuristicWalk]
      rw [if_neg]
      rintro ⟨-, hlt⟩
      omega
  have hwalk : walkResult data = (1, 0 + c) := by
    unfold walkResult
    rw [hd]
    simp only [heuristicWalk]
    rw [if_pos ⟨by omega, by omega⟩]
    exact htail
  have hfst : (walkResult data).1 = 1 := by rw [hwalk]
  simp only [suggestBrightness]
  rw [if_neg (by omega)]
  rw [hfst]
  decide

set_option maxRecDepth 4000 in
/-- Witness for C1 at a concrete 100-byte buffer filled with one value. -/
theorem suggestBrightness_dominant_witness :
    (100 ≤ (List.replicate 100 (65 : Fin 256)).length ∧
      66 * (List.replicate 100 (65 : Fin 256)).length
        ≤ 100 * (List.replicate 100 (65 : Fin 256)).count 65) ∧
    suggestBrightness (List.replicate 100 (65 : Fin 256)) = 66 :=
  ⟨⟨by decide, by decide⟩,
    suggestBrightness_dominant (List.replicate 100 65) 65 (by decide) (by decide)⟩

/-- Counterexample to C1 as stated: a 10-byte buffer entirely filled
with one byte value (100 percent dominance) yields 64, not 66, because
the size guard fires first; the claim holds only for sizes of at
least 100. -/
theorem suggestBrightness_dominant_counterexample :
    66 * (List.replicate 10 (65 : Fin 256)).length
      ≤ 100 * (List.replicate 10 (65 : Fin 256)).count 65 ∧
    suggestBrightness (List.replicate 10 (65 : Fin 256)) ≠ 66 := by
  constructor
  · decide
  · decide

/-! ### Properties of the morph state machine -/

/-- A tick never writes the mode. -/
theorem timerEvent_mode (s : TrigramState) :
    (timerEvent s).mode_ = s.mode_ := rfl

/-- After a tick `c_cyl` is clamped into the unit interval, whatever
its previous value. -/
theorem timerEvent_c_cyl_mem (s : TrigramState) :
    0 ≤ (timerEvent s).c_cyl ∧ (timerEvent s).c_cyl ≤ 1 := by
  simp only [timerEvent]
  split_ifs <;> constructor <;> linarith

/-- After a tick `c_sph` is clamped into the unit interval, whatever
its previous value. -/
theorem timerEvent_c_sph_mem (s : TrigramState) :
    0 ≤ (timerEvent s).c_sph ∧ (timerEvent s).c_sph ≤ 1 := by
  simp only [timerEvent]
  split_ifs <;> constructor <;> linarith

/-- A tick keeps `c_pos` in the unit interval. -/
theorem timerEvent_c_pos_mem (s : TrigramState)
    (h0 : 0 ≤ s.c_pos) (h1 : s.c_pos ≤ 1) :
    0 ≤ (timerEvent s).c_pos ∧ (timerEvent s).c_pos ≤ 1 := by
  simp only [timerEvent]
  split_ifs <;> constructor <;> linarith

/-- In layered-digram mode a tick either leaves `c_pos` at 1 or steps
it up by exactly 1/100 (clamping can only produce the value 1). -/
theorem timerEvent_c_pos_step_up (s : TrigramState)
    (hmode : s.mode_ = EVisualisationMode.LAYERED_DIGRAM)
    (h1 : s.c_pos ≤ 1) :
    (timerEvent s).c_pos = 1 ∨
      (timerEvent s).c_pos = s.c_pos + 1/100 := by
  simp only [timerEvent, hmode, eq_self_iff_true, true_and, not_true,
    false_and, if_false]
  split_ifs with ha hb
  · left; rfl
  · right; rfl
  · left; linarith

/-- Outside layered-digram mode a tick either leaves `c_pos` at 0 or
steps it down by exactly 1/100 (clamping can only produce the value 0). -/
theorem timerEvent_c_pos_step_down (s : TrigramState)
    (hmode : ¬s.mode_ = EVisualisationMode.LAYERED_DIGRAM) :
    (timerEvent s).c_pos = 0 ∨
      (timerEvent s).c_pos = s.c_pos - 1/100 := by
  have heq : s.mode_ = EVisualisationMode.TRIGRAM := by
    cases h : s.mode_
    · rfl
    · exact absurd h hmode
  have hne : (EVisualisationMode.TRIGRAM = EVisualisationMode.LAYERED_DIGRAM)
      = False := by simp
  simp only [timerEvent, heq, hne, false_and, if_false, not_false_iff,
    true_and]
  split_ifs with ha hb
  · left; exact ha
  · left; rfl
  · right; rfl

/-- Ticks never change the mode. -/
theorem runTicks_mode (n : ℕ) (s : TrigramState) :
    (runTicks n s).mode_ = s.mode_ := by
  induction n generalizing s with
  | zero => rfl
  | succ n ih =>
    simp only [runTicks]
    rw [ih, timerEvent_mode]

/-- Ticks keep `c_pos` in the unit interval. -/
theorem runTicks_c_pos_mem (n : ℕ) (s : TrigramState)
    (h0 : 0 ≤ s.c_pos) (h1 : s.c_pos ≤ 1) :
    0 ≤ (runTicks n s).c_pos ∧ (runTicks n s).c_pos ≤ 1 := by
  induction n generalizing s with
  | zero => exact ⟨h0, h1⟩
  | succ n ih =>
    simp only [runTicks]
    obtain ⟨a, b⟩ := timerEvent_c_pos_mem s h0 h1
    exact ih (timerEvent s) a b

/-- Once `c_pos` has hit 1 in layered-digram mode, it idles there. -/
theorem runTicks_c_pos_stays_one (n : ℕ) (s : TrigramState)
    (hmode : s.mode_ = EVisualisationMode.LAYERED_DIGRAM)
    (hone : s.c_pos = 1) :
    (runTicks n s).c_pos = 1 := by
  induction n generalizing s with
  | zero => exact hone
  | succ n ih =>
    simp only [runTicks]
    apply ih
    · rw [timerEvent_mode]
      exact hmode
    · rcases timerEvent_c_pos_step_up s hmode (le_of_eq hone) with h | h
      · exact h
      · obtain ⟨-, hb⟩ := timerEvent_c_pos_mem s
          (by rw [hone]; norm_num) (le_of_eq hone)
        rw [hone] at h
        rw [h] at hb
        norm_num at hb

/-- Once `c_pos` has hit 0 outside layered-digram mode, it idles there. -/
theorem runTicks_c_pos_stays_zero (n : ℕ) (s : TrigramState)
    (hmode : ¬s.mode_ = EVisualisationMode.LAYERED_DIGRAM)
    (hzero : s.c_pos = 0) :
    (runTicks n s).c_pos = 0 := by
  induction n generalizing s with
  | zero => exact hzero
  | succ n ih =>
    simp only [runTicks]
    apply ih
    · rw [timerEvent_mode]
      exact hmode
    · rcases timerEvent_c_pos_step_down s hmode with h | h
      · exact h
      · obtain ⟨ha, -⟩ := timerEvent_c_pos_mem s
          (by rw [hzero]) (by rw [hzero]; norm_num)
        rw [hzero] at h
        rw [h] at ha
        norm_num at ha

/-- With layered-digram mode held, `c_pos` after `n` ticks has reached
1 or has gained at least n/100. -/
theorem runTicks_c_pos_progress_up (n : ℕ) (s : TrigramState)
    (hmode : s.mode_ = EVisualisationMode.LAYERED_DIGRAM)
    (h0 : 0 ≤ s.c_pos) (h1 : s.c_pos ≤ 1) :
    (runTicks n s).c_pos = 1 ∨
      s.c_pos + (n : ℚ) / 100 ≤ (runTicks n s).c_pos := by
  induction n generalizing s with
  | zero =>
    right
    simp [runTicks]
  | succ n ih =>
    simp only [runTicks]
    obtain ⟨a, b⟩ := timerEvent_c_pos_mem s h0 h1
    have hm : (timerEvent s).mode_ = EVisualisationMode.LAYERED_DIGRAM := by
      rw [timerEvent_mode]
      exact hmode
    rcases timerEvent_c_pos_step_up s hmode h1 with hstep | hstep
    · left
      exact runTicks_c_pos_stays_one n (timerEvent s) hm hstep
    · rcases ih (timerEvent s) hm a b with hh | hh
      · left
        exact hh
      · right
        rw [hstep] at hh
        push_cast
        linarith

/-- Outside layered-digram mode, `c_pos` after `n` ticks has reached 0
or has lost at least n/100. -/
theorem runTicks_c_pos_progress_down (n : ℕ) (s : TrigramState)
    (hmode : ¬s.mode_ = EVisualisationMode.LAYERED_DIGRAM)
    (h0 : 0 ≤ s.c_pos) (h1 : s.c_pos ≤ 1) :
    (runTicks n s).c_pos = 0 ∨
      (runTicks n s).c_pos ≤ s.c_pos - (n : ℚ) / 100 := by
  induction n generalizing s with
  | zero =>
    right
    simp [runTicks]
  | succ n ih =>
    simp only [runTicks]
    obtain ⟨a, b⟩ := timerEvent_c_pos_mem s h0 h1
    have hm : ¬(timerEvent s).mode_ = EVisualisationMode.LAYERED_DIGRAM := by
      rw [timerEvent_mode]
      exact hmode
    rcases timerEvent_c_pos_step_down s hmode with hstep | hstep
    · left
      exact runTicks_c_pos_stays_zero n (timerEvent s) hm hstep
    · rcases ih (timerEvent s) hm a b with hh | hh
      · left
        exact hh
      · right
        rw [hstep] at hh
        push_cast
        linarith

/-- One interaction step keeps the blends in the unit interval. -/
theorem applyAction_preserves_blends (s : TrigramState) (a : WidgetAction)
    (h : BlendsInUnit s) : BlendsInUnit (applyAction s a) := by
  obtain ⟨h1, h2, h3, h4, h5, h6⟩ := h
  cases a with
  | tick =>
    obtain ⟨c1, c2⟩ := timerEvent_c_cyl_mem s
    obtain ⟨d1, d2⟩ := timerEvent_c_sph_mem s
    obtain ⟨p1, p2⟩ := timerEvent_c_pos_mem s h5 h6
    exact ⟨c1, c2, d1, d2, p1, p2⟩
  | selectShape sh => exact ⟨h1, h2, h3, h4, h5, h6⟩
  | selectMode m animate =>
    show BlendsInUnit (setMode s m animate)
    simp only [BlendsInUnit, setMode]
    split_ifs
    · exact ⟨h1, h2, h3, h4, by norm_num, by norm_num⟩
    · exact ⟨h1, h2, h3, h4, by norm_num, by norm_num⟩
    · exact ⟨h1, h2, h3, h4, h5, h6⟩

/-- Claim C4: starting from any blend state in the unit cube, after any
finite sequence of timer ticks, shape selections and mode selections,
all three blend scalars remain in [0,1]. -/
theorem runActions_blends_in_unit (s : TrigramState) (h : BlendsInUnit s)
    (acts : List WidgetAction) : BlendsInUnit (runActions s acts) := by
  induction acts generalizing s with
  | nil => exact h
  | cons a rest ih =>
    exact ih (applyAction s a) (applyAction_preserves_blends s a h)

/-- Witness for C4 at a concrete start state and action sequence. -/
theorem runActions_blends_in_unit_witness :
    BlendsInUnit ⟨EVisualisationShape.CUBE, EVisualisationMode.TRIGRAM,
      0, 0, 0, 0, true⟩ ∧
    BlendsInUnit (runActions
      ⟨EVisualisationShape.CUBE, EVisualisationMode.TRIGRAM,
        0, 0, 0, 0, true⟩
      [WidgetAction.tick, WidgetAction.selectShape EVisualisationShape.SPHERE,
        WidgetAction.tick,
        WidgetAction.selectMode EVisualisationMode.LAYERED_DIGRAM false,
        WidgetAction.tick]) :=
  ⟨by simp [BlendsInUnit], runActions_blends_in_unit _ (by simp [BlendsInUnit]) _⟩

/-- Claim C5: from any `c_pos` in [0,1] with the mode held constant,
`c_pos` is exactly 1 after 100 ticks in layered-digram mode and exactly
0 after 100 ticks in any other mode. -/
theorem runTicks_c_pos_reaches_target (s : TrigramState)
    (h0 : 0 ≤ s.c_pos) (h1 : s.c_pos ≤ 1) :
    (s.mode_ = EVisualisationMode.LAYERED_DIGRAM →
      (runTicks 100 s).c_pos = 1) ∧
    (¬s.mode_ = EVisualisationMode.LAYERED_DIGRAM →
      (runTicks 100 s).c_pos = 0) := by
  constructor
  · intro hmode
    rcases runTicks_c_pos_progress_up 100 s hmode h0 h1 with h | h
    · exact h
    · obtain ⟨-, hb⟩ := runTicks_c_pos_mem 100 s h0 h1
      push_cast at h
      linarith
  · intro hmode
    rcases runTicks_c_pos_progress_down 100 s hmode h0 h1 with h | h
    · exact h
    · obtain ⟨ha, -⟩ := runTicks_c_pos_mem 100 s h0 h1
      push_cast at h
      linarith

/-- Witness for C5 at a concrete start state in each mode. -/
theorem runTicks_c_pos_reaches_target_witness :
    (0 ≤ ((⟨EVisualisationShape.CUBE, EVisualisationMode.LAYERED_DIGRAM,
        0, 0, 0, 0, true⟩ : TrigramState)).c_pos ∧
      ((⟨EVisualisationShape.CUBE, EVisualisationMode.LAYERED_DIGRAM,
        0, 0, 0, 0, true⟩ : TrigramState)).c_pos ≤ 1) ∧
    ((⟨EVisualisationShape.CUBE, EVisualisationMode.LAYERED_DIGRAM,
        0, 0, 0, 0, true⟩ : TrigramState).mode_
          = EVisualisationMode.LAYERED_DIGRAM →
      (runTicks 100 ⟨EVisualisationShape.CUBE,
        EVisualisationMode.LAYERED_DIGRAM, 0, 0, 0, 0, true⟩).c_pos = 1) ∧
    (¬(⟨EVisualisationShape.CUBE, EVisualisationMode.LAYERED_DIGRAM,
        0, 0, 0, 0, true⟩ : TrigramState).mode_
          = EVisualisationMode.LAYERED_DIGRAM →
      (runTicks 100 ⟨EVisualisationShape.CUBE,
        EVisualisationMode.LAYERED_DIGRAM, 0, 0, 0, 0, true⟩).c_pos = 0) :=
  ⟨⟨by simp, by simp⟩,
    runTicks_c_pos_reaches_target _ (by simp) (by simp)⟩

/-- Claim C7 (amended): a `setMode` call with `animate` false snaps
`c_pos` straight to its target, 1 for `LAYERED_DIGRAM` and 0 for
`TRIGRAM`; `setShape` takes no animate flag and never snaps: it writes
only the shape, leaving every blend scalar unchanged. -/
theorem setMode_snaps_setShape_never_snaps (s : TrigramState)
    (sh : EVisualisationShape) :
    (setMode s EVisualisationMode.LAYERED_DIGRAM false).c_pos = 1 ∧
    (setMode s EVisualisationMode.TRIGRAM false).c_pos = 0 ∧
    (setShape s sh).c_cyl = s.c_cyl ∧
    (setShape s sh).c_sph = s.c_sph ∧
    (setShape s sh).c_pos = s.c_pos := by
  refine ⟨?_, ?_, rfl, rfl, rfl⟩
  · simp [setMode]
  · simp [setMode]

/-- Counterexample to C7 as stated: `setShape` performs no snap at all.
Selecting the SPHERE shape leaves `c_sph` at 0 instead of snapping it
to its target 1 (and a later tick moves it by only 1/100). -/
theorem setShape_snap_counterexample :
    (setShape ⟨EVisualisationShape.CUBE, EVisualisationMode.TRIGRAM,
        0, 0, 0, 0, true⟩ EVisualisationShape.SPHERE).c_sph ≠ 1 := by
  decide

/-! ### Properties of the brightness intensity -/

/-- The exact value 262.144 = 262144/1000 = 32768/125 is not dyadic:
its reduced denominator is not a power of two. -/
theorem not_isDyadic_262144_div_1000 : ¬IsDyadic (262144 / 1000) := by
  rintro ⟨m, k, h⟩
  have h2 : (2 : ℚ) ^ k ≠ 0 := by positivity
  have hq : (262144 : ℚ) * 2 ^ k = 1000 * m := by
    field_simp at h
    linarith
  have hz : (262144 : ℤ) * 2 ^ k = 1000 * m := by exact_mod_cast hq
  have h125 : (125 : ℤ) ∣ 2 ^ (18 + k) := by
    have he : (2 : ℤ) ^ (18 + k) = 262144 * 2 ^ k := by
      rw [pow_add]
      norm_num
    rw [he, hz]
    exact ⟨8 * m, by ring⟩
  have h5 : (5 : ℤ) ∣ 2 ^ (18 + k) := dvd_trans (by norm_num) h125
  have hp : Prime (5 : ℤ) := by norm_num
  have hd := hp.dvd_of_dvd_pow h5
  norm_num at hd

/-- Claim C6 (amended): `setBrightness` establishes the intensity
`value³ / dataSize` in exact arithmetic — `apply(64, 1000)` is exactly
262144/1000 = 262.144 as a rational — but 262.144 is not a dyadic
rational, hence is representable by no binary floating-point value of
any precision: the machine float result is the nearest representable
value, not exactly 262.144. -/
theorem setBrightnessIntensity_cubic :
    (∀ (value : Int) (n : ℕ),
      setBrightnessIntensity value (n + 1)
        = some ((value : ℚ) * value * value / ((n + 1 : ℕ) : ℚ))) ∧
    setBrightnessIntensity 64 1000 = some (262144 / 1000) ∧
    ¬IsDyadic (262144 / 1000) := by
  refine ⟨?_, ?_, not_isDyadic_262144_div_1000⟩
  · intro value n
    unfold setBrightnessIntensity
    rw [if_neg (Nat.succ_ne_zero n)]
  · unfold setBrightnessIntensity
    rw [if_neg (by norm_num : (1000 : ℕ) ≠ 0)]
    norm_num

/-- Counterexample to C6 as stated: `apply(64, 1000)` cannot yield
exactly 262.144 as a floating-point result, because no binary
floating-point value equals 262144/1000. -/
theorem setBrightnessIntensity_float_exact_counterexample :
    ¬∃ q : ℚ, setBrightnessIntensity 64 1000 = some q ∧ IsDyadic q := by
  rintro ⟨q, hq, hd⟩
  unfold setBrightnessIntensity at hq
  rw [if_neg (by norm_num : (1000 : ℕ) ≠ 0)] at hq
  have hqe : ((64 : ℤ) : ℚ) * 64 * 64 / ((1000 : ℕ) : ℚ) = q :=
    Option.some.inj hq
  have hq2 : q = 262144 / 1000 := by
    rw [← hqe]
    norm_num
  rw [hq2] at hd
  exact not_isDyadic_262144_div_1000 hd

/-- Claim C8 (amended): the heuristic is total with result always in
[38, 66] (the guarded midpoint 64 included), and `setBrightness`
succeeds for every nonzero data size; `setBrightness` itself has no
size guard, so at data size 0 its division has no finite result. -/
theorem numeric_paths_guarded (data : List (Fin 256)) (value : Int)
    (n : ℕ) (hn : n ≠ 0) :
    38 ≤ suggestBrightness data ∧ suggestBrightness data ≤ 66 ∧
    (setBrightnessIntensity value n).isSome = true := by
  refine ⟨?_, ?_, ?_⟩
  · simp only [suggestBrightness, k_minimum_brightness,
      k_maximum_brightness, k_brightness_heuristic_min,
      k_brightness_heuristic_max]
    split_ifs
    · decide
    · exact le_max_left _ _
  · simp only [suggestBrightness, k_minimum_brightness,
      k_maximum_brightness, k_brightness_heuristic_min,
      k_brightness_heuristic_max]
    split_ifs
    · decide
    · apply max_le
      · decide
      · have h0 : (0 : ℤ) ≤ ((2 * (walkResult data).1 / 5 : ℕ) : ℤ) :=
          Int.natCast_nonneg _
        omega
  · unfold setBrightnessIntensity
    rw [if_neg hn]
    rfl

/-- Witness for C8 at a concrete buffer, brightness and size. -/
theorem numeric_paths_guarded_witness :
    (1000 : ℕ) ≠ 0 ∧
    (38 ≤ suggestBrightness [] ∧ suggestBrightness [] ≤ 66 ∧
      (setBrightnessIntensity 64 1000).isSome = true) :=
  ⟨by decide, numeric_paths_guarded [] 64 1000 (by decide)⟩

/-- Counterexample to C8 as stated: `setBrightness` divides by the data
size with no guard, so at data size 0 the statement
`c_brightness /= getDataSize()` divides by zero; the embedded
computation has no finite result there.  The `size < 100` guard cited
by the claim lives in `suggestBrightness` only. -/
theorem setBrightness_division_by_zero_counterexample :
    setBrightnessIntensity 64 0 = none := rfl

/-! ### Properties of the manipulator controller -/

/-- Claim C9: a `setManipulator` call with the currently active
manipulator is a complete no-op: the whole state — active manipulator,
event-filter routing, playing flag, pause-control availability, every
manipulator pose, and the emitted notifications — is unchanged. -/
theorem setManipulator_same_noop {M : Type} (transform : M → M)
    (initFromMatrix : M → M → M) (handlesPause : Manipulator → Bool)
    (s : ManipState M) (m : Manipulator)
    (hcur : s.current_manipulator_ = some m) :
    setManipulator transform initFromMatrix handlesPause s m = s := by
  unfold setManipulator
  rw [if_pos hcur.symm]

/-- Witness for C9 at a concrete state with the Spin manipulator
active. -/
theorem setManipulator_same_noop_witness :
    (⟨some Manipulator.Spin, [Manipulator.Spin], true, true, true,
        fun _ => (0 : Int), []⟩ : ManipState Int).current_manipulator_
      = some Manipulator.Spin ∧
    setManipulator id (fun p t => t) (fun _ => true)
        (⟨some Manipulator.Spin, [Manipulator.Spin], true, true, true,
          fun _ => (0 : Int), []⟩ : ManipState Int) Manipulator.Spin
      = ⟨some Manipulator.Spin, [Manipulator.Spin], true, true, true,
          fun _ => (0 : Int), []⟩ :=
  ⟨rfl, setManipulator_same_noop id (fun p t => t) (fun _ => true) _
    Manipulator.Spin rfl⟩

/-- Switching to a manipulator other than the active one makes it the
active one, through every branch of `setManipulator`. -/
theorem setManipulator_switch_current {M : Type} (transform : M → M)
    (initFromMatrix : M → M → M) (handlesPause : Manipulator → Bool)
    (s : ManipState M) (m : Manipulator)
    (hne : ¬some m = s.current_manipulator_) :
    (setManipulator transform initFromMatrix handlesPause s
      m).current_manipulator_ = some m := by
  unfold setManipulator
  rw [if_neg hne]
  cases hc : s.current_manipulator_ <;>
    by_cases hp : s.is_playing_ <;>
      by_cases hb : s.pause_button_present <;>
        simp [playPause, hp, hc, hb]

/-- Claim C10: a key press matching the Free manipulator's modifier
predicate while Spin or Trackball is active promotes the active
manipulator to Free — and forwards that same triggering event to the
Trackball manipulator, not to the newly active Free manipulator. -/
theorem event_keyPress_promotes_free_forwards_trackball {M : Type}
    (transform : M → M) (initFromMatrix : M → M → M)
    (handlesPause : Manipulator → Bool) (isCtrlButton : Int → Bool)
    (s : ManipState M) (key : Int)
    (hcur : s.current_manipulator_ = some Manipulator.Spin ∨
      s.current_manipulator_ = some Manipulator.Trackball)
    (hkey : isCtrlButton key = true) :
    ((event transform initFromMatrix handlesPause isCtrlButton s
        (InputEvent.keyPress key)).1).current_manipulator_
      = some Manipulator.Free ∧
    (event transform initFromMatrix handlesPause isCtrlButton s
        (InputEvent.keyPress key)).2 = [Manipulator.Trackball] := by
  have hne : ¬some Manipulator.Free = s.current_manipulator_ := by
    rcases hcur with h | h <;> rw [h] <;> simp
  simp only [event]
  rw [if_pos ⟨hcur, hkey⟩]
  exact ⟨setManipulator_switch_current transform initFromMatrix
    handlesPause s Manipulator.Free hne, rfl⟩

/-- Witness for C10 at a concrete state with Spin active and a
predicate accepting the pressed key. -/
theorem event_keyPress_promotion_witness :
    ((⟨some Manipulator.Spin, [Manipulator.Spin], true, true, true,
        fun _ => (0 : Int), []⟩ : ManipState Int).current_manipulator_
          = some Manipulator.Spin ∨
      (⟨some Manipulator.Spin, [Manipulator.Spin], true, true, true,
        fun _ => (0 : Int), []⟩ : ManipState Int).current_manipulator_
          = some Manipulator.Trackball) ∧
    (fun _ : Int => true) 17 = true ∧
    (((event id (fun p t => t) (fun _ => true) (fun _ => true)
        (⟨some Manipulator.Spin, [Manipulator.Spin], true, true, true,
          fun _ => (0 : Int), []⟩ : ManipState Int)
        (InputEvent.keyPress 17)).1).current_manipulator_
      = some Manipulator.Free ∧
    (event id (fun p t => t) (fun _ => true) (fun _ => true)
        (⟨some Manipulator.Spin, [Manipulator.Spin], true, true, true,
          fun _ => (0 : Int), []⟩ : ManipState Int)
        (InputEvent.keyPress 17)).2 = [Manipulator.Trackball]) :=
  ⟨Or.inl rfl, rfl,
    event_keyPress_promotes_free_forwards_trackball id (fun p t => t)
      (fun _ => true) (fun _ => true) _ 17 (Or.inl rfl) rfl⟩

end Veles
